import Mathlib

/-!
Verification of the fractal distance evaluator and modulation router of
`src/hooks/useAppStore.ts`.

Shallow embedding of the numeric core of the repository:

* `getPlanet1Distance` (lines 73–124): the fractal signed-distance
  evaluator.  JavaScript numbers are modelled as exact rationals (`ℚ`);
  `Math.sin` and `Math.cos` are transcendental and are therefore
  abstracted as function parameters `sin cos : ℚ → ℚ` — every theorem
  below holds for *all* such functions, in particular for (any rounding
  of) the true sine and cosine.  `Float32Array` rounding is not
  modelled.  The module-level scratch buffers `temp_q` / `temp_q_rot`
  (lines 70–71) are modelled explicitly as a `Buffers` state threaded
  through the evaluator, so that claims about shared scratch storage can
  be settled.  The `while (i > 0.05)` loop has no bound in the source,
  so the run is indexed by fuel and returns `Option`: `none` means the
  loop did not finish within the given number of iterations.

* `defaultSoundConfig.modulations` (lines 170–184) and `MOD_RANGES`
  (lines 188–192): the modulation bindings and range table.  The source
  file is truncated inside the `MOD_RANGES` literal (after the
  `arp.octaves` entry); only the visible entries are embedded and
  the targets cut off by the truncation are modelled as absent.

* `ModulationRouter.resolve` is not present in the source file (the
  file ends inside `MOD_RANGES`); it is modelled from the spec where a
  claim needs it.
-/

/-- A 3-component vector of exact rationals (models a JS `number[]` /
`Float32Array` triple). -/
structure Vec3 where
  x : ℚ
  y : ℚ
  z : ℚ
deriving DecidableEq, Repr

/-- The three fractal uniforms read by `getPlanet1Distance`
(keys `slider_fractalScale`, `slider_fractalRotation`,
`slider_fractalPulseStrength` of the `uniforms` map); `none` models a missing /
undefined key in the `uniforms : any` map. -/
structure Uniforms where
  fractalScale : Option ℚ
  fractalRotation : Option ℚ
  fractalPulseStrength : Option ℚ
deriving DecidableEq, Repr

/-- Line 74: the scale uniform with its `?? 0.37` fallback. -/
def resolvedScale (u : Uniforms) : ℚ := u.fractalScale.getD 0.37

/-- Line 75: the rotation uniform with its `?? 1.09` fallback. -/
def resolvedRotation (u : Uniforms) : ℚ := u.fractalRotation.getD 1.09

/-- Line 76: the pulse-strength uniform with its `?? 0.0` fallback. -/
def resolvedPulse (u : Uniforms) : ℚ := u.fractalPulseStrength.getD 0.0

/-- Truncation toward zero, the rounding used by the JavaScript `%`
operator on its quotient. -/
def ratTrunc (x : ℚ) : ℤ := if 0 ≤ x then ⌊x⌋ else -⌊-x⌋

/-- The JavaScript remainder operator `a % b` (truncated division
remainder) on finite values with `b ≠ 0`; the model returns `a` at
`b = 0` (JS yields `NaN` there), but every use below has `b > 0`. -/
def jsRem (a b : ℚ) : ℚ := a - b * ratTrunc (a / b)

/-- The non-negative ("true") modulo idiom `((v % m) + m) % m` of
lines 100–102. -/
def trueMod (v m : ℚ) : ℚ := jsRem (jsRem v m + m) m

/-- JavaScript `Math.abs` on an exact rational. -/
def mathAbs (x : ℚ) : ℚ := if x < 0 then -x else x

/-- One component of the inlined fold of lines 98–112: fold `v` by the
true modulo into `[0, 2i)`, subtract `i`, take the absolute value. -/
def foldComponent (v i : ℚ) : ℚ :=
  let two_i := i + i
  mathAbs (trueMod v two_i - i)

/-- The module-level scratch storage of lines 70–71:
`const temp_q = new Float32Array(3); const temp_q_rot = new Float32Array(3);`. -/
structure Buffers where
  temp_q : Vec3
  temp_q_rot : Vec3
deriving DecidableEq, Repr

/-- The state carried across iterations of the `while (i > 0.05)` loop:
the shared buffers plus the local accumulators `d` and `i`. -/
structure LoopState where
  bufs : Buffers
  d : ℚ
  i : ℚ
deriving DecidableEq, Repr

/-- One iteration of the loop body (lines 87–121): compute the angle,
rotate `temp_q` about Y into `temp_q_rot`, fold each component, write
the new `temp_q`, update `d` and shrink `i`. -/
def loopBody (sin cos : ℚ → ℚ) (scale rot pulse t : ℚ) (s : LoopState) : LoopState :=
  let angle := rot + sin (t * 1.0 + s.bufs.temp_q.y * 5.0) * pulse
  let c := cos angle
  let sn := sin angle
  let rx := s.bufs.temp_q.x * c + s.bufs.temp_q.z * sn
  let ry := s.bufs.temp_q.y
  let rz := -s.bufs.temp_q.x * sn + s.bufs.temp_q.z * c
  let qx := foldComponent rx s.i
  let qy := foldComponent ry s.i
  let qz := foldComponent rz s.i
  let i9 := s.i * 0.9
  let nq : Vec3 := ⟨i9 - qx, i9 - qy, i9 - qz⟩
  { bufs := ⟨nq, ⟨rx, ry, rz⟩⟩
    d := max s.d (min nq.x (min nq.y nq.z))
    i := s.i * scale }

/-- Fuel-indexed run of `while (i > 0.05) { … }` (lines 86–122): `none`
when the guard is still true after `fuel` iterations. -/
def runLoop (sin cos : ℚ → ℚ) (scale rot pulse t : ℚ) : ℕ → LoopState → Option LoopState
  | 0, s => if s.i > 0.05 then none else some s
  | n + 1, s =>
      if s.i > 0.05 then
        runLoop sin cos scale rot pulse t n (loopBody sin cos scale rot pulse t s)
      else some s

/-- The function `getPlanet1Distance` (lines 73–124) with the module-level buffers
made explicit: it takes the buffer contents before the call and returns
the distance together with the buffer contents after the call.  The body
first copies `p_vec` into `temp_q` (lines 79–81), initialises
`d = -temp_q[1]`, `i = 58.0` (lines 83–84), runs the loop and returns
`d` (line 123). -/
def getPlanet1DistanceG (sin cos : ℚ → ℚ) (g : Buffers) (p : Vec3)
    (u : Uniforms) (t : ℚ) (fuel : ℕ) : Option (ℚ × Buffers) :=
  let scale := resolvedScale u
  let rot := resolvedRotation u
  let pulse := resolvedPulse u
  let g1 : Buffers := { g with temp_q := p }
  (runLoop sin cos scale rot pulse t fuel ⟨g1, -p.y, 58.0⟩).map
    fun s => (s.d, s.bufs)

/-- The distance returned by `getPlanet1Distance` (line 123), starting
from zeroed buffers (the initial contents of a `Float32Array`). -/
def getPlanet1Distance (sin cos : ℚ → ℚ) (p : Vec3) (u : Uniforms)
    (t : ℚ) (fuel : ℕ) : Option ℚ :=
  (getPlanet1DistanceG sin cos ⟨⟨0, 0, 0⟩, ⟨0, 0, 0⟩⟩ p u t fuel).map Prod.fst

/-- Written from the words of the spec (§4.1 step 2c): the true
(non-negative) modulo of `v` by `m`. -/
def specMod (v m : ℚ) : ℚ := v - m * ⌊v / m⌋

/-- Written from the words of the spec (§4.1 step 1): the working point
`q`, the accumulator `d` and the lattice size `i`. -/
structure SpecState where
  q : Vec3
  d : ℚ
  i : ℚ
deriving DecidableEq, Repr

/-- Written from the words of the spec (§4.1 steps 2a–2f): one loop
iteration — the time-and-position-varying angle, the standard rotation
about the Y axis of the X/Z pair, the fold of each component into
`[0, 2i)` by the true modulo re-centred by `-i` and taken absolute, the
Menger-style inversion `0.9*i` minus each folded component, the `max` /
`min` accumulator update and the lattice shrink. -/
def specStep (sin cos : ℚ → ℚ) (scale rot pulse t : ℚ) (s : SpecState) : SpecState :=
  let angle := rot + sin (t + s.q.y * 5) * pulse
  let c := cos angle
  let sn := sin angle
  let r : Vec3 := ⟨s.q.x * c + s.q.z * sn, s.q.y, -s.q.x * sn + s.q.z * c⟩
  let fold : ℚ → ℚ := fun v => |specMod v (2 * s.i) - s.i|
  let q : Vec3 := ⟨0.9 * s.i - fold r.x, 0.9 * s.i - fold r.y, 0.9 * s.i - fold r.z⟩
  { q := q
    d := max s.d (min q.x (min q.y q.z))
    i := s.i * scale }

/-- Written from the words of the spec (§4.1 step 2): the fuel-indexed
run of the `while i > 0.05` iteration. -/
def specRun (sin cos : ℚ → ℚ) (scale rot pulse t : ℚ) : ℕ → SpecState → Option SpecState
  | 0, s => if s.i > 0.05 then none else some s
  | n + 1, s =>
      if s.i > 0.05 then
        specRun sin cos scale rot pulse t n (specStep sin cos scale rot pulse t s)
      else some s

/-- Written from the words of the spec (§4.1): the distance function
`distance(p, params, t)` — start from `q = p`, `d = -p.y`, `i = 58.0`,
iterate, return `d`. -/
def specDistance (sin cos : ℚ → ℚ) (p : Vec3) (scale rot pulse t : ℚ)
    (fuel : ℕ) : Option ℚ :=
  (specRun sin cos scale rot pulse t fuel ⟨p, -p.y, 58.0⟩).map SpecState.d

/-- The correspondence between a code-level loop state and a spec-level
one: same working point, accumulator and lattice size (the code state
additionally carries the shared `temp_q_rot` buffer). -/
def stateRel (ls : LoopState) (ss : SpecState) : Prop :=
  ls.bufs.temp_q = ss.q ∧ ls.d = ss.d ∧ ls.i = ss.i

/-- The telemetry channels used as modulation sources in the default
configuration (`speed`, `altitude`, `pitch`). -/
inductive ModSource where
  | speed
  | altitude
  | pitch
deriving DecidableEq, Repr

/-- The modulation targets visible in the source file: the keys of the
(truncated) `MOD_RANGES` literal together with `arp.direction`, the one
discrete target bound in `defaultSoundConfig.modulations`. -/
inductive ModTarget where
  | masterVolume
  | droneGain
  | droneFilter
  | dronePitch
  | atmosphereGain
  | arpGain
  | arpSpeed
  | arpFilter
  | arpOctaves
  | arpDirection
deriving DecidableEq, Repr

/-- Whether a target is continuous (real-valued); `arp.direction` is the
only discrete target among those visible in the source. -/
def ModTarget.isContinuous : ModTarget → Bool
  | .arpDirection => false
  | _ => true

/-- A `ModulationBinding` record
`{ id, enabled, source, target, amount }` as in lines 172–183. -/
structure Modulation where
  id : String
  enabled : Bool
  source : ModSource
  target : ModTarget
  amount : ℚ
deriving DecidableEq, Repr

/-- The `modulations` array of `defaultSoundConfig` (lines 170–184). -/
def defaultSoundConfig_modulations : List Modulation :=
  [ ⟨"1", true, .speed, .droneFilter, 0.4⟩,
    ⟨"5", true, .altitude, .atmosphereGain, 0.15⟩,
    ⟨"6", true, .altitude, .dronePitch, -0.1⟩,
    ⟨"new1", true, .pitch, .arpDirection, 1.5⟩,
    ⟨"new2", true, .speed, .arpSpeed, 0.8⟩,
    ⟨"new3", true, .pitch, .arpOctaves, 1.0⟩ ]

/-- The `MOD_RANGES` table (lines 188–192).  The source file is cut off
inside this literal just after the `arp.octaves` entry; the entries
below are exactly the visible ones, and any target whose entry would lie
in the truncated tail is modelled as absent (`none`). -/
def MOD_RANGES : ModTarget → Option ℚ
  | .masterVolume => some 1.0
  | .droneGain => some 1.0
  | .droneFilter => some 2000
  | .dronePitch => some 24
  | .atmosphereGain => some 1.0
  | .arpGain => some 1.0
  | .arpSpeed => some 3.0
  | .arpFilter => some 4000
  | .arpOctaves => some 3
  | .arpDirection => none

/-- The three-valued arp direction: `up` / `down` plus the default
ping-pong mode `updown` of line 161. -/
inductive ArpDirection where
  | up
  | down
  | updown
deriving DecidableEq, Repr

/-- Modelled from the spec: the resolved parameter set produced by
`ModulationRouter.resolve` (the router itself is not in the visible
source) — a numeric value for every target plus the resolved discrete
arp direction.  The numeric slot of the discrete target `arpDirection`
is carried unchanged from the base configuration. -/
structure ResolvedParams where
  value : ModTarget → ℚ
  direction : ArpDirection

/-- Modelled from the spec (§4.3 step 2): the contribution of one
binding, `normalized[source] * amount * RangeTable[target]`, with a
missing range entry or a missing normalized source value contributing
`0`. -/
def contribution (normalized : ModSource → Option ℚ) (b : Modulation) : ℚ :=
  (normalized b.source).getD 0 * b.amount * (MOD_RANGES b.target).getD 0

/-- Modelled from the spec (§4.3 step 4): clamp a continuous value to
the documented legal domain of its target.  The spec names the domain
explicitly only for gains (`[0,1]`); the numeric domains of the other
targets are not given, so they are modelled as unconstrained
(identity). -/
def clampSpec : ModTarget → ℚ → ℚ
  | .masterVolume, x => max 0 (min 1 x)
  | .droneGain, x => max 0 (min 1 x)
  | .atmosphereGain, x => max 0 (min 1 x)
  | .arpGain, x => max 0 (min 1 x)
  | _, x => x

/-- Modelled from the spec (§4.3 step 5, §8): the three-way threshold
(at `0.5`) mapping a normalized source value to an arp direction. -/
def directionOf (v : ℚ) : ArpDirection :=
  if v > 0.5 then .up else if v < -0.5 then .down else .updown

/-- Modelled from the spec (§4.3 step 5): the resolved discrete arp
direction — among the enabled bindings targeting `arp.direction`, the
last-evaluated one wins; with none, the base direction stands. -/
def resolveDirection (bindings : List Modulation) (normalized : ModSource → Option ℚ)
    (baseDir : ArpDirection) : ArpDirection :=
  bindings.foldl
    (fun acc b =>
      if b.enabled && b.target == ModTarget.arpDirection then
        directionOf ((normalized b.source).getD 0)
      else acc)
    baseDir

/-- Modelled from the spec (§4.3 steps 1–4, 6): the resolved numeric
value of one target — the base value plus the summed contributions of
the enabled bindings on that target, clamped; discrete targets keep
their base numeric slot. -/
def resolveValue (bindings : List Modulation) (normalized : ModSource → Option ℚ)
    (base : ModTarget → ℚ) (tgt : ModTarget) : ℚ :=
  if tgt.isContinuous then
    clampSpec tgt (base tgt +
      ((bindings.filter fun b => b.enabled && b.target == tgt).map
        (contribution normalized)).sum)
  else base tgt

/-- Modelled from the spec (§4.3): `ModulationRouter.resolve` — from the
bindings, the normalized source mapping and the base configuration to
the resolved parameter set. -/
def resolve (bindings : List Modulation) (normalized : ModSource → Option ℚ)
    (base : ResolvedParams) : ResolvedParams :=
  { value := resolveValue bindings normalized base.value
    direction := resolveDirection bindings normalized base.direction }

/-- Conditional absolute value agrees with the lattice one. -/
theorem mathAbs_eq_abs (x : ℚ) : mathAbs x = |x| := by
  by_cases h : x < 0
  · rw [mathAbs, if_pos h, abs_of_neg h]
  · rw [mathAbs, if_neg h, abs_of_nonneg (not_lt.mp h)]

/-- On a non-negative quotient the JS remainder is the floor-mod. -/
theorem jsRem_eq_fract_of_nonneg (a b : ℚ) (hb : b ≠ 0) (h : 0 ≤ a / b) :
    jsRem a b = b * Int.fract (a / b) := by
  rw [jsRem, ratTrunc, if_pos h, Int.fract, mul_sub, mul_div_cancel₀ _ hb]

/-- On a negative quotient the JS remainder is minus the floor-mod of
the negated quotient. -/
theorem jsRem_eq_neg_fract_of_neg (a b : ℚ) (hb : b ≠ 0) (h : a / b < 0) :
    jsRem a b = -(b * Int.fract (-(a / b))) := by
  rw [jsRem, ratTrunc, if_neg (not_le.mpr h), Int.fract]
  push_cast
  have hba : b * (a / b) = a := mul_div_cancel₀ _ hb
  ring_nf
  ring_nf at hba
  linarith

/-- The JS remainder by a positive modulus is below the modulus. -/
theorem jsRem_lt (a b : ℚ) (hb : 0 < b) : jsRem a b < b := by
  rcases le_or_lt 0 (a / b) with h | h
  · rw [jsRem_eq_fract_of_nonneg a b hb.ne' h]
    calc b * Int.fract (a / b) < b * 1 :=
          mul_lt_mul_of_pos_left (Int.fract_lt_one _) hb
      _ = b := mul_one b
  · rw [jsRem_eq_neg_fract_of_neg a b hb.ne' h]
    have h0 : 0 ≤ b * Int.fract (-(a / b)) :=
      mul_nonneg hb.le (Int.fract_nonneg _)
    linarith

/-- The JS remainder by a positive modulus is above minus the modulus. -/
theorem neg_lt_jsRem (a b : ℚ) (hb : 0 < b) : -b < jsRem a b := by
  rcases le_or_lt 0 (a / b) with h | h
  · have h0 : 0 ≤ b * Int.fract (a / b) := mul_nonneg hb.le (Int.fract_nonneg _)
    rw [jsRem_eq_fract_of_nonneg a b hb.ne' h]
    linarith
  · have h1 : b * Int.fract (-(a / b)) < b * 1 :=
      mul_lt_mul_of_pos_left (Int.fract_lt_one _) hb
    rw [jsRem_eq_neg_fract_of_neg a b hb.ne' h]
    linarith

/-- The double-remainder idiom computes the mathematical floor-mod. -/
theorem trueMod_eq_fract (a b : ℚ) (hb : 0 < b) :
    trueMod a b = b * Int.fract (a / b) := by
  have hr : -b < jsRem a b := neg_lt_jsRem a b hb
  have h0 : 0 ≤ (jsRem a b + b) / b := div_nonneg (by linarith) hb.le
  rw [trueMod, jsRem_eq_fract_of_nonneg _ b hb.ne' h0]
  congr 1
  have h1 : (jsRem a b + b) / b = a / b + ((1 - ratTrunc (a / b) : ℤ) : ℚ) := by
    rw [jsRem]
    push_cast
    field_simp
    ring
  rw [h1, Int.fract_add_int]

/-- The spec-side true modulo is the mathematical floor-mod. -/
theorem specMod_eq_fract (v m : ℚ) (hm : m ≠ 0) :
    specMod v m = m * Int.fract (v / m) := by
  rw [specMod, Int.fract, mul_sub, mul_div_cancel₀ _ hm]

/-- For a positive modulus the code idiom and the spec modulo agree. -/
theorem trueMod_eq_specMod (a b : ℚ) (hb : 0 < b) : trueMod a b = specMod a b := by
  rw [trueMod_eq_fract a b hb, specMod_eq_fract a b hb.ne']

/-- The true modulo is non-negative. -/
theorem trueMod_nonneg (a b : ℚ) (hb : 0 < b) : 0 ≤ trueMod a b := by
  rw [trueMod_eq_fract a b hb]
  exact mul_nonneg hb.le (Int.fract_nonneg _)

/-- The true modulo is below the modulus. -/
theorem trueMod_lt (a b : ℚ) (hb : 0 < b) : trueMod a b < b := by
  rw [trueMod_eq_fract a b hb]
  calc b * Int.fract (a / b) < b * 1 :=
        mul_lt_mul_of_pos_left (Int.fract_lt_one _) hb
    _ = b := mul_one b

/-- The code-side fold of one component equals the spec-side fold. -/
theorem foldComponent_eq_spec (v i : ℚ) (hi : 0 < i) :
    foldComponent v i = |specMod v (2 * i) - i| := by
  have h2 : (0:ℚ) < i + i := by linarith
  simp only [foldComponent, mathAbs_eq_abs]
  rw [trueMod_eq_specMod v (i + i) h2, two_mul]

/-- C2 (counterexample): at rotated component `v = 0` and lattice size
`i = 1` the fold step returns exactly `1`, which is not strictly less
than `i = 1` — the folded absolute component can reach the closed upper
bound `i`, refuting membership in the half-open interval `[0, i)`. -/
theorem foldComponent_reaches_upper_bound :
    foldComponent 0 1 = 1 ∧ ¬ foldComponent 0 1 < 1 := by
  constructor
  · norm_num [foldComponent, mathAbs, trueMod, jsRem, ratTrunc]
  · norm_num [foldComponent, mathAbs, trueMod, jsRem, ratTrunc]

/-- C2 (amended): for every rotated component value `v` and lattice
size `i > 0`, the fold step — true modulo into `[0, 2i)`, recentred by
`-i`, absolute value — lands in the closed interval `[0, i]` (the upper
bound `i` is attained exactly when `v` is a multiple of `2i`). -/
theorem foldComponent_mem_Icc (v i : ℚ) (hi : 0 < i) :
    0 ≤ foldComponent v i ∧ foldComponent v i ≤ i := by
  have h2 : (0:ℚ) < i + i := by linarith
  have h0 := trueMod_nonneg v (i + i) h2
  have h1 := trueMod_lt v (i + i) h2
  simp only [foldComponent, mathAbs_eq_abs]
  refine ⟨abs_nonneg _, ?_⟩
  rw [abs_le]
  constructor <;> linarith

/-- C2 witness: the amended bound instantiated at `v = 3`, `i = 2`. -/
theorem foldComponent_mem_Icc_witness :
    (0:ℚ) < 2 ∧ (0 ≤ foldComponent 3 2 ∧ foldComponent 3 2 ≤ 2) :=
  ⟨by norm_num, foldComponent_mem_Icc 3 2 (by norm_num)⟩

/-- The loop body multiplies the lattice size by the scale. -/
theorem loopBody_i (sin cos : ℚ → ℚ) (scale rot pulse t : ℚ) (s : LoopState) :
    (loopBody sin cos scale rot pulse t s).i = s.i * scale := rfl

/-- Fuel sufficiency: once the lattice size decayed below the threshold
within `n` steps, the loop finishes on fuel `n`. -/
theorem runLoop_isSome_of_pow_le (sin cos : ℚ → ℚ) (scale rot pulse t : ℚ) :
    ∀ (n : ℕ) (s : LoopState), s.i * scale ^ n ≤ 0.05 →
      ∃ r, runLoop sin cos scale rot pulse t n s = some r := by
  intro n
  induction n with
  | zero =>
    intro s h
    rw [pow_zero, mul_one] at h
    exact ⟨s, by simp only [runLoop, if_neg (not_lt.mpr h)]⟩
  | succ n ih =>
    intro s h
    by_cases hg : s.i > 0.05
    · have h' : (loopBody sin cos scale rot pulse t s).i * scale ^ n ≤ 0.05 := by
        rw [loopBody_i]
        calc s.i * scale * scale ^ n = s.i * scale ^ (n + 1) := by ring
          _ ≤ 0.05 := h
      obtain ⟨r, hr⟩ := ih (loopBody sin cos scale rot pulse t s) h'
      exact ⟨r, by simp only [runLoop, if_pos hg]; exact hr⟩
    · exact ⟨s, by simp only [runLoop, if_neg hg]⟩

/-- Divergence: with `scale ≥ 1` the lattice size never decays, so no
amount of fuel finishes the loop. -/
theorem runLoop_none_of_one_le (sin cos : ℚ → ℚ) (scale rot pulse t : ℚ)
    (hsc : 1 ≤ scale) :
    ∀ (n : ℕ) (s : LoopState), 0.05 < s.i →
      runLoop sin cos scale rot pulse t n s = none := by
  intro n
  induction n with
  | zero => intro s h; simp only [runLoop, if_pos h]
  | succ n ih =>
    intro s h
    have h' : 0.05 < (loopBody sin cos scale rot pulse t s).i := by
      rw [loopBody_i]
      have : s.i ≤ s.i * scale := le_mul_of_one_le_right (by linarith) hsc
      linarith
    simp only [runLoop, if_pos h]
    exact ih _ h'

/-- C1 (code divergence): the `while (i > 0.05)` loop of
`getPlanet1Distance` has no hard iteration cap; when the resolved
fractal scale is `≥ 1` (e.g. `slider_fractalScale = 1`), the lattice
size `i` never falls below `0.05`, so the evaluator fails to return for
every iteration budget `fuel` — it loops indefinitely instead of
stopping at an absolute cap such as 256 iterations. -/
theorem getPlanet1Distance_diverges_of_one_le_scale (sin cos : ℚ → ℚ)
    (p : Vec3) (u : Uniforms) (t : ℚ) (h : 1 ≤ resolvedScale u) (fuel : ℕ) :
    getPlanet1Distance sin cos p u t fuel = none := by
  have hnone := runLoop_none_of_one_le sin cos (resolvedScale u) (resolvedRotation u)
    (resolvedPulse u) t h fuel ⟨⟨p, ⟨0, 0, 0⟩⟩, -p.y, 58.0⟩ (by norm_num)
  simp [getPlanet1Distance, getPlanet1DistanceG, hnone]

/-- C1 witness: the divergence theorem at the concrete failing input
`p = (0,0,5)`, `slider_fractalScale = 1`, `t = 0`, fuel 256. -/
theorem getPlanet1Distance_diverges_witness :
    getPlanet1Distance (fun _ => 0) (fun _ => 1) ⟨0, 0, 5⟩
      ⟨some 1, none, none⟩ 0 256 = none :=
  getPlanet1Distance_diverges_of_one_le_scale _ _ _ _ _
    (by norm_num [resolvedScale]) 256

/-- At the documented iteration count `⌈log(0.05/58) / log scale⌉` the
decayed lattice size `58 * scale ^ n` has fallen to the threshold. -/
theorem pow_le_threshold_at_ceil_bound (q : ℚ) (h1 : 0 < q) (h2 : q < 1) :
    (58:ℚ) * q ^ (⌈Real.log (0.05 / 58) / Real.log (q : ℝ)⌉).toNat ≤ 0.05 := by
  have hx0 : (0:ℝ) < (q : ℝ) := by exact_mod_cast h1
  have hx1 : (q : ℝ) < 1 := by exact_mod_cast h2
  have hlx : Real.log (q : ℝ) < 0 := Real.log_neg hx0 hx1
  have hc : (0:ℝ) < 0.05 / 58 := by norm_num
  have hlc : Real.log ((0.05:ℝ) / 58) < 0 := Real.log_neg hc (by norm_num)
  have hLpos : 0 < Real.log (0.05 / 58) / Real.log (q : ℝ) :=
    div_pos_of_neg_of_neg hlc hlx
  set L : ℝ := Real.log (0.05 / 58) / Real.log (q : ℝ) with hLdef
  set B : ℕ := (⌈L⌉).toNat with hBdef
  have hZ : ((B : ℤ)) = ⌈L⌉ := Int.toNat_of_nonneg (Int.ceil_nonneg hLpos.le)
  have hBL : L ≤ (B : ℝ) := by
    calc L ≤ (⌈L⌉ : ℝ) := Int.le_ceil L
      _ = ((B : ℤ) : ℝ) := by rw [hZ]
      _ = (B : ℝ) := by push_cast; rfl
  have hpow : (q : ℝ) ^ B ≤ 0.05 / 58 := by
    by_contra hlt
    push_neg at hlt
    have hlog : Real.log (0.05 / 58) < Real.log ((q : ℝ) ^ B) :=
      Real.log_lt_log hc hlt
    rw [Real.log_pow] at hlog
    have hEq : L * Real.log (q : ℝ) = Real.log (0.05 / 58) :=
      div_mul_cancel₀ _ (ne_of_lt hlx)
    have hmul : (B : ℝ) * Real.log (q : ℝ) ≤ L * Real.log (q : ℝ) :=
      mul_le_mul_of_nonpos_right hBL hlx.le
    rw [hEq] at hmul
    linarith
  have hfin : (58:ℝ) * (q : ℝ) ^ B ≤ 0.05 := by
    calc (58:ℝ) * (q : ℝ) ^ B ≤ 58 * (0.05 / 58) :=
          mul_le_mul_of_nonneg_left hpow (by norm_num)
      _ = 0.05 := by norm_num
  have hcast1 : ((58 * q ^ B : ℚ) : ℝ) = (58:ℝ) * (q : ℝ) ^ B := by
    push_cast
    ring
  have hcast2 : ((0.05 : ℚ) : ℝ) = (0.05 : ℝ) := by norm_num
  rw [← Rat.cast_le (K := ℝ), hcast1, hcast2]
  exact hfin

/-- C4 (confirmed): for a resolved fractal scale strictly between 0 and
1, `getPlanet1Distance` terminates within the documented iteration
bound `⌈log(0.05/58) / log scale⌉` and returns a value (every value of
the exact-rational model is finite). -/
theorem getPlanet1Distance_terminates_within_bound (sin cos : ℚ → ℚ)
    (p : Vec3) (u : Uniforms) (t : ℚ)
    (h1 : 0 < resolvedScale u) (h2 : resolvedScale u < 1) :
    ∃ r : ℚ, getPlanet1Distance sin cos p u t
      ((⌈Real.log (0.05 / 58) / Real.log ((resolvedScale u : ℝ))⌉).toNat) = some r := by
  have hpow := pow_le_threshold_at_ceil_bound (resolvedScale u) h1 h2
  obtain ⟨s', hs'⟩ := runLoop_isSome_of_pow_le sin cos (resolvedScale u)
    (resolvedRotation u) (resolvedPulse u) t
    ((⌈Real.log (0.05 / 58) / Real.log ((resolvedScale u : ℝ))⌉).toNat)
    ⟨⟨p, ⟨0, 0, 0⟩⟩, -p.y, 58.0⟩ (by norm_num; linarith)
  exact ⟨s'.d, by simp [getPlanet1Distance, getPlanet1DistanceG, hs']⟩

/-- C4 witness: termination within the documented bound at the concrete
input `p = (0,0,5)`, `slider_fractalScale = 1/2`, `t = 0`. -/
theorem getPlanet1Distance_terminates_witness :
    ∃ r : ℚ, getPlanet1Distance (fun _ => 0) (fun _ => 1) ⟨0, 0, 5⟩
      ⟨some (1/2), none, none⟩ 0
      ((⌈Real.log (0.05 / 58) /
          Real.log ((resolvedScale ⟨some (1/2), none, none⟩ : ℝ))⌉).toNat) = some r :=
  getPlanet1Distance_terminates_within_bound _ _ _ _ _
    (by norm_num [resolvedScale]) (by norm_num [resolvedScale])

/-- The loop body never decreases the accumulator `d`. -/
theorem le_loopBody_d (sin cos : ℚ → ℚ) (scale rot pulse t : ℚ) (s : LoopState) :
    s.d ≤ (loopBody sin cos scale rot pulse t s).d :=
  le_max_left _ _

/-- Along any terminating run, the accumulator only grows. -/
theorem runLoop_d_mono (sin cos : ℚ → ℚ) (scale rot pulse t : ℚ) :
    ∀ (n : ℕ) (s s' : LoopState),
      runLoop sin cos scale rot pulse t n s = some s' → s.d ≤ s'.d := by
  intro n
  induction n with
  | zero =>
    intro s s' h
    by_cases hg : s.i > 0.05
    · simp only [runLoop, if_pos hg] at h
      exact absurd h (by simp)
    · simp only [runLoop, if_neg hg, Option.some.injEq] at h
      rw [← h]
  | succ n ih =>
    intro s s' h
    by_cases hg : s.i > 0.05
    · simp only [runLoop, if_pos hg] at h
      exact (le_loopBody_d sin cos scale rot pulse t s).trans (ih _ _ h)
    · simp only [runLoop, if_neg hg, Option.some.injEq] at h
      rw [← h]

/-- C10 (confirmed): whenever `getPlanet1Distance` returns a value (for
a resolved scale in `(0,1)`), that value is at least `-p.y` — the
accumulator starts at the negated y component and is only ever updated
through `max`. -/
theorem getPlanet1Distance_ge_neg_y (sin cos : ℚ → ℚ) (p : Vec3)
    (u : Uniforms) (t : ℚ)
    (h1 : 0 < resolvedScale u) (h2 : resolvedScale u < 1) :
    ∀ (fuel : ℕ) (r : ℚ),
      getPlanet1Distance sin cos p u t fuel = some r → -p.y ≤ r := by
  intro fuel r h
  simp only [getPlanet1Distance, getPlanet1DistanceG, Option.map_map,
    Option.map_eq_some', Function.comp] at h
  obtain ⟨s', hs', hd⟩ := h
  have := runLoop_d_mono sin cos (resolvedScale u) (resolvedRotation u)
    (resolvedPulse u) t fuel _ _ hs'
  simp only at this
  rw [← hd]
  exact this

/-- C10 witness: at `p = (0,2,5)`, scale `1/1200`, the evaluator
returns `-2 = -p.y` after one iteration, and the bound holds there. -/
theorem getPlanet1Distance_ge_neg_y_witness :
    getPlanet1Distance (fun _ => 0) (fun _ => 1) ⟨0, 2, 5⟩
      ⟨some (1/1200), some 0, some 0⟩ 0 1 = some (-2) ∧ -(2:ℚ) ≤ -2 := by
  have heval : getPlanet1Distance (fun _ => 0) (fun _ => 1) ⟨0, 2, 5⟩
      ⟨some (1/1200), some 0, some 0⟩ 0 1 = some (-2) := by
    norm_num [getPlanet1Distance, getPlanet1DistanceG, resolvedScale,
      resolvedRotation, resolvedPulse, runLoop, loopBody, foldComponent,
      mathAbs, trueMod, jsRem, ratTrunc, min_def, max_def]
  refine ⟨heval, ?_⟩
  have hb := getPlanet1Distance_ge_neg_y (fun _ => 0) (fun _ => 1) ⟨0, 2, 5⟩
    ⟨some (1/1200), some 0, some 0⟩ 0
    (by norm_num [resolvedScale]) (by norm_num [resolvedScale]) 1 (-2) heval
  simpa using hb

/-- One code-level iteration matches one spec-level iteration on
related states (the guard guarantees a positive lattice size). -/
theorem stateRel_loopBody (sin cos : ℚ → ℚ) (scale rot pulse t : ℚ)
    (ls : LoopState) (ss : SpecState) (h : stateRel ls ss) (hi : 0.05 < ls.i) :
    stateRel (loopBody sin cos scale rot pulse t ls)
      (specStep sin cos scale rot pulse t ss) := by
  obtain ⟨h1, h2, h3⟩ := h
  have hipos : 0 < ss.i := by rw [← h3]; linarith
  have harg : t * 1.0 + ss.q.y * 5.0 = t + ss.q.y * 5 := by norm_num
  have hfold : ∀ v : ℚ, foldComponent v ss.i = |specMod v (2 * ss.i) - ss.i| :=
    fun v => foldComponent_eq_spec v ss.i hipos
  have hcomm : ss.i * 0.9 = 0.9 * ss.i := mul_comm _ _
  unfold stateRel loopBody specStep
  simp only [h1, h2, h3, harg, hfold, hcomm]
  exact ⟨by trivial, by trivial, by trivial⟩

/-- The projections to the distance accumulator of the code-level and
spec-level runs agree on related states, fuel by fuel. -/
theorem runLoop_specRun_d (sin cos : ℚ → ℚ) (scale rot pulse t : ℚ) :
    ∀ (n : ℕ) (ls : LoopState) (ss : SpecState), stateRel ls ss →
      (runLoop sin cos scale rot pulse t n ls).map LoopState.d =
      (specRun sin cos scale rot pulse t n ss).map SpecState.d := by
  intro n
  induction n with
  | zero =>
    intro ls ss h
    obtain ⟨h1, h2, h3⟩ := h
    simp only [runLoop, specRun, h3]
    by_cases hg : ss.i > 0.05
    · rw [if_pos hg, if_pos hg]
      simp
    · rw [if_neg hg, if_neg hg]
      simp [h2]
  | succ n ih =>
    intro ls ss h
    have h3 := h.2.2
    simp only [runLoop, specRun, h3]
    by_cases hg : ss.i > 0.05
    · rw [if_pos hg, if_pos hg]
      exact ih _ _ (stateRel_loopBody sin cos scale rot pulse t ls ss h
        (by rw [h3]; exact hg))
    · rw [if_neg hg, if_neg hg]
      simp [h.2.1]

/-- C3 (confirmed): with a resolved scale in `(0,1)`,
`getPlanet1Distance` computes exactly the iteration specified for
`DistanceField` — same initialisation `q = p`, `d = -p.y`, `i = 58`,
same per-iteration angle, Y-axis rotation, true-modulo fold, inversion,
`max`/`min` accumulator update and lattice shrink, and it finally
returns the accumulated `d`: the code run agrees with the run written
from the words of the spec at every fuel, and the run terminates at
some fuel. -/
theorem getPlanet1Distance_matches_spec (sin cos : ℚ → ℚ) (p : Vec3)
    (u : Uniforms) (t : ℚ)
    (h1 : 0 < resolvedScale u) (h2 : resolvedScale u < 1) :
    (∀ fuel, getPlanet1Distance sin cos p u t fuel =
      specDistance sin cos p (resolvedScale u) (resolvedRotation u)
        (resolvedPulse u) t fuel) ∧
    ∃ N r, getPlanet1Distance sin cos p u t N = some r := by
  constructor
  · intro fuel
    have hrel : stateRel ⟨⟨p, ⟨0, 0, 0⟩⟩, -p.y, 58.0⟩ ⟨p, -p.y, 58.0⟩ :=
      ⟨rfl, rfl, rfl⟩
    have hd := runLoop_specRun_d sin cos (resolvedScale u) (resolvedRotation u)
      (resolvedPulse u) t fuel _ _ hrel
    simpa [getPlanet1Distance, getPlanet1DistanceG, specDistance,
      Option.map_map, Function.comp] using hd
  · obtain ⟨n, hn⟩ := exists_pow_lt_of_lt_one
      (show (0:ℚ) < 0.05 / 58 by norm_num) h2
    obtain ⟨s', hs'⟩ := runLoop_isSome_of_pow_le sin cos (resolvedScale u)
      (resolvedRotation u) (resolvedPulse u) t n
      ⟨⟨p, ⟨0, 0, 0⟩⟩, -p.y, 58.0⟩ (by norm_num; nlinarith)
    exact ⟨n, s'.d, by simp [getPlanet1Distance, getPlanet1DistanceG, hs']⟩

/-- C3 witness: the spec correspondence at the concrete input
`p = (0,0,5)`, `slider_fractalScale = 1/2`, `t = 0`. -/
theorem getPlanet1Distance_matches_spec_witness :
    (∀ fuel, getPlanet1Distance (fun _ => 0) (fun _ => 1) ⟨0, 0, 5⟩
        ⟨some (1/2), none, none⟩ 0 fuel =
      specDistance (fun _ => 0) (fun _ => 1) ⟨0, 0, 5⟩
        (resolvedScale ⟨some (1/2), none, none⟩)
        (resolvedRotation ⟨some (1/2), none, none⟩)
        (resolvedPulse ⟨some (1/2), none, none⟩) 0 fuel) ∧
    ∃ N r, getPlanet1Distance (fun _ => 0) (fun _ => 1) ⟨0, 0, 5⟩
        ⟨some (1/2), none, none⟩ 0 N = some r :=
  getPlanet1Distance_matches_spec _ _ _ _ _
    (by norm_num [resolvedScale]) (by norm_num [resolvedScale])

/-- C5 (confirmed): a missing fractal uniform resolves to its fixed
default (`scale = 0.37`, `rotation = 1.09`, `pulseStrength = 0.0`); the
evaluation is identical to the one with the default supplied
explicitly, and the total model never throws. -/
theorem getPlanet1Distance_default_fallbacks (sin cos : ℚ → ℚ) (p : Vec3)
    (t : ℚ) (fuel : ℕ) (u : Uniforms) :
    (u.fractalScale = none →
      getPlanet1Distance sin cos p u t fuel =
      getPlanet1Distance sin cos p { u with fractalScale := some 0.37 } t fuel) ∧
    (u.fractalRotation = none →
      getPlanet1Distance sin cos p u t fuel =
      getPlanet1Distance sin cos p { u with fractalRotation := some 1.09 } t fuel) ∧
    (u.fractalPulseStrength = none →
      getPlanet1Distance sin cos p u t fuel =
      getPlanet1Distance sin cos p { u with fractalPulseStrength := some 0.0 } t fuel) := by
  refine ⟨fun h => ?_, fun h => ?_, fun h => ?_⟩ <;>
    simp [getPlanet1Distance, getPlanet1DistanceG, resolvedScale,
      resolvedRotation, resolvedPulse, h]

/-- C5 witness: the scale fallback at a concrete uniforms map missing
`slider_fractalScale`. -/
theorem getPlanet1Distance_default_fallbacks_witness :
    getPlanet1Distance (fun _ => 0) (fun _ => 1) ⟨0, 0, 5⟩
      ⟨none, some 0, some 0⟩ 0 0 =
    getPlanet1Distance (fun _ => 0) (fun _ => 1) ⟨0, 0, 5⟩
      ⟨some 0.37, some 0, some 0⟩ 0 0 :=
  (getPlanet1Distance_default_fallbacks _ _ _ _ _ ⟨none, some 0, some 0⟩).1 rfl

/-- The loop body reads only `temp_q`, `d` and `i`; its output does not
depend on the incoming contents of `temp_q_rot`, which it overwrites
before reading. -/
theorem loopBody_rot_buffer_irrelevant (sin cos : ℚ → ℚ)
    (scale rot pulse t : ℚ) (ls ls' : LoopState)
    (h1 : ls.bufs.temp_q = ls'.bufs.temp_q) (h2 : ls.d = ls'.d)
    (h3 : ls.i = ls'.i) :
    loopBody sin cos scale rot pulse t ls = loopBody sin cos scale rot pulse t ls' := by
  unfold loopBody
  rw [h1, h2, h3]

/-- The whole call is independent of the buffer contents found before
it: the initial copy overwrites `temp_q`, and the first iteration (the
guard holds at `i = 58`) overwrites `temp_q_rot`. -/
theorem getPlanet1DistanceG_ext (sin cos : ℚ → ℚ) (g g' : Buffers)
    (p : Vec3) (u : Uniforms) (t : ℚ) (fuel : ℕ) :
    getPlanet1DistanceG sin cos g p u t fuel =
    getPlanet1DistanceG sin cos g' p u t fuel := by
  unfold getPlanet1DistanceG
  cases fuel with
  | zero => norm_num [runLoop]
  | succ n =>
    have hb : loopBody sin cos (resolvedScale u) (resolvedRotation u)
        (resolvedPulse u) t ⟨⟨p, g.temp_q_rot⟩, -p.y, 58⟩ =
        loopBody sin cos (resolvedScale u) (resolvedRotation u)
        (resolvedPulse u) t ⟨⟨p, g'.temp_q_rot⟩, -p.y, 58⟩ :=
      loopBody_rot_buffer_irrelevant _ _ _ _ _ _ _ _ rfl rfl rfl
    norm_num [runLoop, hb]

/-- C6 (confirmed): as a sequential function the evaluator is
deterministic and pure — the distance it returns depends only on the
arguments `p`, `uniforms`, `t` (and the iteration budget), not on the
contents the module-level scratch buffers `temp_q` / `temp_q_rot` held
before the call. -/
theorem getPlanet1Distance_deterministic (sin cos : ℚ → ℚ) (g g' : Buffers)
    (p : Vec3) (u : Uniforms) (t : ℚ) (fuel : ℕ) :
    (getPlanet1DistanceG sin cos g p u t fuel).map Prod.fst =
    (getPlanet1DistanceG sin cos g' p u t fuel).map Prod.fst := by
  rw [getPlanet1DistanceG_ext sin cos g g' p u t fuel]

/-- C7 (counterexample): the claim that `getPlanet1Distance` uses no
globally shared mutable scratch state is false on the code — the
module-level buffers `temp_q` / `temp_q_rot` (lines 70–71) are written
by the call: starting a call with zeroed buffers does not leave them
zeroed. -/
theorem getPlanet1DistanceG_mutates_buffers :
    (getPlanet1DistanceG (fun _ => 0) (fun _ => 1) ⟨⟨0, 0, 0⟩, ⟨0, 0, 0⟩⟩
        ⟨0, 0, 0⟩ ⟨some 0, some 0, some 0⟩ 0 1).map Prod.snd ≠
      some ⟨⟨0, 0, 0⟩, ⟨0, 0, 0⟩⟩ := by
  norm_num [getPlanet1DistanceG, resolvedScale, resolvedRotation,
    resolvedPulse, runLoop, loopBody, foldComponent, mathAbs, trueMod,
    jsRem, ratTrunc, Buffers.mk.injEq, Vec3.mk.injEq]

/-- C7 (amended): the working storage of `getPlanet1Distance` is the
pair of module-level buffers, shared by all invocations and mutated by
each call (so it is not invocation-local); however, every call fully
overwrites the buffers before reading them, so the result and the final
buffer contents are determined by the arguments alone. -/
theorem getPlanet1DistanceG_shared_scratch :
    (∀ (sin cos : ℚ → ℚ) (g g' : Buffers) (p : Vec3) (u : Uniforms)
        (t : ℚ) (fuel : ℕ),
      getPlanet1DistanceG sin cos g p u t fuel =
      getPlanet1DistanceG sin cos g' p u t fuel) ∧
    (getPlanet1DistanceG (fun _ => 0) (fun _ => 1) ⟨⟨0, 0, 0⟩, ⟨0, 0, 0⟩⟩
        ⟨1, 2, 3⟩ ⟨some 0, some 0, some 0⟩ 0 1).map Prod.snd ≠
      some ⟨⟨0, 0, 0⟩, ⟨0, 0, 0⟩⟩ := by
  constructor
  · intro sin cos g g' p u t fuel
    exact getPlanet1DistanceG_ext sin cos g g' p u t fuel
  · norm_num [getPlanet1DistanceG, resolvedScale, resolvedRotation,
      resolvedPulse, runLoop, loopBody, foldComponent, mathAbs, trueMod,
      jsRem, ratTrunc, Buffers.mk.injEq, Vec3.mk.injEq]

/-- C8 (confirmed): every continuous target referenced by an enabled
binding of `defaultSoundConfig.modulations` (`drone.filter`,
`atmosphere.gain`, `drone.pitch`, `arp.speed`, `arp.octaves`) has an
entry in `MOD_RANGES`; and a binding whose target is missing from the
table contributes zero effect rather than an error. -/
theorem mod_ranges_cover_enabled_targets :
    (∀ b ∈ defaultSoundConfig_modulations, b.enabled = true →
      b.target.isContinuous = true → (MOD_RANGES b.target).isSome = true) ∧
    (∀ (normalized : ModSource → Option ℚ) (b : Modulation),
      MOD_RANGES b.target = none → contribution normalized b = 0) := by
  constructor
  · intro b hb he hc
    fin_cases hb <;> simp_all [ModTarget.isContinuous, MOD_RANGES]
  · intro normalized b h
    simp [contribution, h]

/-- C8 witness: the first enabled binding (`speed → drone.filter`) has
a range entry, and a binding on the table-less target `arp.direction`
contributes zero. -/
theorem mod_ranges_cover_enabled_targets_witness :
    (MOD_RANGES ModTarget.droneFilter).isSome = true ∧
    contribution (fun _ => some 1)
      ⟨"x", true, ModSource.pitch, ModTarget.arpDirection, 1⟩ = 0 :=
  ⟨mod_ranges_cover_enabled_targets.1 ⟨"1", true, .speed, .droneFilter, 0.4⟩
      (List.mem_cons_self _ _) rfl rfl,
    mod_ranges_cover_enabled_targets.2 (fun _ => some 1) _ rfl⟩

/-- C9 (counterexample): with a bindings list whose only binding is
disabled, `resolve` does not return the base configuration exactly when
a base value lies outside its legal domain — the unconditional step-4
clamp pulls an out-of-range base gain of `2` down to `1`. -/
theorem resolve_clamps_out_of_range_base :
    (resolve [⟨"d", false, ModSource.speed, ModTarget.atmosphereGain, 1⟩]
        (fun _ => some 1)
        ⟨fun _ => 2, ArpDirection.updown⟩).value ModTarget.atmosphereGain ≠
    (ResolvedParams.mk (fun _ => 2) ArpDirection.updown).value
      ModTarget.atmosphereGain := by
  norm_num [resolve, resolveValue, clampSpec, contribution,
    ModTarget.isContinuous, List.filter, min_def, max_def]

/-- C9 (amended): `resolve` with every binding disabled returns exactly
the base configuration, provided each base value already lies in its
legal domain (is a fixed point of the clamp); in general the numeric
values come back clamped.  Disabled bindings are skipped entirely. -/
theorem resolve_identity_of_disabled (bindings : List Modulation)
    (normalized : ModSource → Option ℚ) (base : ResolvedParams)
    (hdis : ∀ b ∈ bindings, b.enabled = false)
    (hdom : ∀ tgt, clampSpec tgt (base.value tgt) = base.value tgt) :
    resolve bindings normalized base = base := by
  have hfilter : ∀ tgt : ModTarget,
      bindings.filter (fun b => b.enabled && b.target == tgt) = [] := by
    intro tgt
    apply List.filter_eq_nil_iff.mpr
    intro b hb
    simp [hdis b hb]
  have hdir : ∀ (l : List Modulation) (d : ArpDirection),
      (∀ b ∈ l, b.enabled = false) → resolveDirection l normalized d = d := by
    intro l
    induction l with
    | nil => intro d _; rfl
    | cons b bs ih =>
      intro d hl
      have hb : b.enabled = false := hl b (List.mem_cons_self b bs)
      simp only [resolveDirection, List.foldl_cons, hb, Bool.false_and,
        Bool.false_eq_true, if_false]
      exact ih d (fun b' hb' => hl b' (List.mem_cons_of_mem _ hb'))
  cases base with
  | mk v dir =>
    unfold resolve
    simp only
    have hv : resolveValue bindings normalized v = v := by
      funext tgt
      unfold resolveValue
      by_cases hc : tgt.isContinuous
      · rw [if_pos hc, hfilter tgt]
        simpa using hdom tgt
      · rw [if_neg hc]
    rw [hv, hdir bindings dir hdis]

/-- C9 witness: the amended identity at a concrete disabled binding
list and an in-domain base configuration. -/
theorem resolve_identity_of_disabled_witness :
    resolve [⟨"d", false, ModSource.speed, ModTarget.atmosphereGain, 1⟩]
      (fun _ => some 1) ⟨fun _ => 1/2, ArpDirection.updown⟩ =
    ⟨fun _ => 1/2, ArpDirection.updown⟩ :=
  resolve_identity_of_disabled _ _ _
    (by intro b hb; rw [List.mem_singleton] at hb; subst hb; rfl)
    (by intro tgt; cases tgt <;> norm_num [clampSpec, min_def, max_def])
